import Mathlib

/-!
Verification of the UART register-interface host library
(`uart_register_interface.py`): a shallow embedding of the frame codec
(CRC-8), the register transport (`write_register` / `read_register` with
their statistics counters), and the event subsystem (bounded history,
handler dispatch, history queries), together with proofs of the spec's
claims about them.

Bytes are modelled as `Nat` values; byte-level operators (`^`, `<<`, `&`)
of the source become `^^^`, `<<<`, `&&&` on `Nat`.
-/

namespace Uart

/-! ## Frame codec: CRC-8 (source: `_crc8_update`, `_calculate_crc`) -/

/-- One CRC-8 step, polynomial 0x07 (source `_crc8_update`):
`temp = crc ^ data; crc = (temp << 1) & 0xFF; if temp & 0x80: crc ^= 0x07`. -/
def crc8_update (crc data : Nat) : Nat :=
  let temp := crc ^^^ data
  let crc2 := (temp <<< 1) &&& 0xFF
  if temp &&& 0x80 ≠ 0 then crc2 ^^^ 0x07 else crc2

/-- CRC-8 of a byte sequence, initial value 0 (source `_calculate_crc`). -/
def calculate_crc (data : List Nat) : Nat :=
  data.foldl crc8_update 0

/-- The CRC-8 step exactly as the spec words it: XOR the byte into the
running CRC, left-shift by one bit and mask to 8 bits, then XOR 0x07 into
the result if the pre-shift top bit was set. Written independently of the
source (`% 256` for the mask, `testBit 7` for the top bit) to compare the
two. -/
def crc8_spec_step (crc byte : Nat) : Nat :=
  let x := crc ^^^ byte
  let shifted := (x <<< 1) % 256
  if x.testBit 7 then shifted ^^^ 0x07 else shifted

/-- Spec-worded CRC-8 over a byte sequence: start from 0x00, process bytes
in order with `crc8_spec_step`. -/
def crc8_spec (data : List Nat) : Nat :=
  data.foldl crc8_spec_step 0

theorem and_128_eq (x : Nat) : x &&& 128 = (x.testBit 7).toNat * 128 := by
  have h := Nat.and_two_pow x 7
  norm_num at h
  exact h

theorem crc8_step_agree (crc byte : Nat) : crc8_spec_step crc byte = crc8_update crc byte := by
  unfold crc8_spec_step crc8_update
  have hmask : ((crc ^^^ byte) <<< 1) % 256 = ((crc ^^^ byte) <<< 1) &&& 0xFF := by
    have h := Nat.and_pow_two_sub_one_eq_mod ((crc ^^^ byte) <<< 1) 8
    norm_num at h
    exact h.symm
  have htop : ((crc ^^^ byte) &&& 0x80 ≠ 0) ↔ (crc ^^^ byte).testBit 7 := by
    rw [show (0x80 : Nat) = 128 from rfl, and_128_eq]
    cases (crc ^^^ byte).testBit 7 <;> simp
  dsimp only
  rw [hmask]
  rcases Classical.em ((crc ^^^ byte).testBit 7) with h | h
  · rw [if_pos h, if_pos (htop.mpr h)]
  · rw [if_neg h, if_neg (fun hc => h (htop.mp hc))]

/-- C1: the checksum computed by the frame codec (`_calculate_crc`) equals,
for every byte sequence, the value of the spec's algorithm: starting from
0x00 and processing bytes in order, XOR each byte into the running CRC,
left-shift by one bit and mask to 8 bits, then XOR 0x07 into the result if
the pre-shift top bit was set. -/
theorem C1_crc_matches_spec (data : List Nat) : calculate_crc data = crc8_spec data := by
  unfold calculate_crc crc8_spec
  induction data using List.reverseRecOn with
  | nil => rfl
  | append_singleton xs x ih =>
    simp only [List.foldl_append, List.foldl_cons, List.foldl_nil, ih, crc8_step_agree]

/-! ## Single-bit-flip detection (claim C2)

`crc8_update crc data` depends only on `crc ^^^ data`, and is GF(2)-linear
in that combined argument; a one-byte XOR difference therefore propagates
through the rest of the fold as an iterated nonzero "syndrome". -/

/-- Propagation of an XOR difference through one CRC step (a step with
data byte 0). -/
def gstep (e : Nat) : Nat := crc8_update e 0

/-- `k`-fold application of `gstep`. -/
def gIter : Nat → Nat → Nat
  | 0, e => e
  | k + 1, e => gIter k (gstep e)

theorem crc8_update_arg (a d : Nat) : crc8_update a d = gstep (a ^^^ d) := by
  unfold gstep crc8_update
  simp

/-- The CRC step written as an unconditional XOR of a shift part and a
conditional-polynomial part. -/
theorem gstep_eq (t : Nat) :
    gstep t = ((t <<< 1) &&& 0xFF) ^^^ (if t &&& 0x80 ≠ 0 then 0x07 else 0) := by
  unfold gstep crc8_update
  dsimp only
  rw [Nat.xor_zero]
  split <;> simp

theorem shiftLeft_one_xor (x e : Nat) : (x ^^^ e) <<< 1 = (x <<< 1) ^^^ (e <<< 1) := by
  apply Nat.eq_of_testBit_eq
  intro i
  simp [Nat.testBit_shiftLeft, Nat.testBit_xor, Bool.and_xor_distrib_left]

theorem xor_mix (a b c d : Nat) : (a ^^^ b) ^^^ (c ^^^ d) = (a ^^^ c) ^^^ (b ^^^ d) := by
  apply Nat.eq_of_testBit_eq
  intro i
  simp [Nat.testBit_xor]
  cases a.testBit i <;> cases b.testBit i <;> cases c.testBit i <;> cases d.testBit i <;> rfl

/-- GF(2)-linearity of the CRC step. -/
theorem gstep_xor (x e : Nat) : gstep (x ^^^ e) = gstep x ^^^ gstep e := by
  rw [gstep_eq, gstep_eq, gstep_eq]
  have hshift : ((x ^^^ e) <<< 1) &&& 0xFF =
      ((x <<< 1) &&& 0xFF) ^^^ ((e <<< 1) &&& 0xFF) := by
    rw [shiftLeft_one_xor, Nat.and_xor_distrib_right]
  have hx := and_128_eq x
  have he := and_128_eq e
  have hxe : (x ^^^ e) &&& 128 = (x &&& 128) ^^^ (e &&& 128) :=
    Nat.and_xor_distrib_right
  rw [hshift, xor_mix]
  congr 1
  rw [show (0x80 : Nat) = 128 from rfl] at *
  cases hbx : x.testBit 7 <;> cases hbe : e.testBit 7 <;>
    simp [hbx, hbe] at hx he <;>
    simp [hxe, hx, he]

theorem crc8_update_xor (a e d : Nat) :
    crc8_update (a ^^^ e) d = crc8_update a d ^^^ gstep e := by
  rw [crc8_update_arg, crc8_update_arg]
  have h : (a ^^^ e) ^^^ d = (a ^^^ d) ^^^ e := by
    rw [Nat.xor_assoc, Nat.xor_assoc, Nat.xor_comm e d]
  rw [h, gstep_xor]

/-- A difference XORed into the running CRC propagates through a fold as an
iterated syndrome. -/
theorem foldl_crc_xor (l : List Nat) :
    ∀ a e, l.foldl crc8_update (a ^^^ e) = l.foldl crc8_update a ^^^ gIter l.length e := by
  induction l with
  | nil => intro a e; simp [gIter]
  | cons d rest ih =>
    intro a e
    simp only [List.foldl_cons, List.length_cons]
    rw [crc8_update_xor, ih]
    rfl

theorem gstep_lt (e : Nat) : gstep e < 256 := by
  rw [gstep_eq]
  have h1 : (e <<< 1) &&& 0xFF < 2 ^ 8 :=
    Nat.and_lt_two_pow _ (by norm_num)
  have h2 : (if e &&& 0x80 ≠ 0 then 0x07 else 0) < 2 ^ 8 := by
    split <;> norm_num
  exact lt_of_lt_of_le (Nat.xor_lt_two_pow h1 h2) (by norm_num)

set_option maxRecDepth 4000 in
theorem gstep_ne_zero_fin : ∀ e : Fin 256, e.val ≠ 0 → gstep e.val ≠ 0 := by decide

theorem gstep_ne_zero {e : Nat} (hlt : e < 256) (hne : e ≠ 0) : gstep e ≠ 0 :=
  gstep_ne_zero_fin ⟨e, hlt⟩ hne

theorem gIter_ne_zero : ∀ (k : Nat) {e : Nat}, e < 256 → e ≠ 0 → gIter k e ≠ 0 := by
  intro k
  induction k with
  | zero => intro e _ hne; exact hne
  | succ n ih =>
    intro e hlt hne
    exact ih (gstep_lt e) (gstep_ne_zero hlt hne)

theorem xor_ne_self {x d : Nat} (hd : d ≠ 0) : x ^^^ d ≠ x := by
  intro h
  apply hd
  have h2 : x ^^^ (x ^^^ d) = x ^^^ x := congrArg (x ^^^ ·) h
  rwa [← Nat.xor_assoc, Nat.xor_self, Nat.zero_xor] at h2

/-- Flip bit `j` of byte `i` of a byte sequence (indices outside the
sequence leave it unchanged via `List.set`). -/
def flipBit (p : List Nat) (i j : Nat) : List Nat :=
  p.set i (p.getD i 0 ^^^ (1 <<< j))

/-- The decoder-side CRC validation: the CRC-8 recomputed over all bytes
preceding the trailer equals the trailing byte (source: `read_register`
lines 337-341, `calc_crc == recv_crc`). -/
def crcCheck (p : List Nat) : Bool :=
  calculate_crc p.dropLast == p.getLast?.getD 0

theorem pow_two_lt_256 {j : Nat} (hj : j < 8) : (1 <<< j) < 256 := by
  rw [Nat.shiftLeft_eq, Nat.one_mul]
  calc 2 ^ j ≤ 2 ^ 7 := Nat.pow_le_pow_right (by norm_num) (by omega)
  _ < 256 := by norm_num

theorem pow_two_ne_zero (j : Nat) : (1 <<< j) ≠ 0 := by
  rw [Nat.shiftLeft_eq, Nat.one_mul]
  exact Nat.pos_iff_ne_zero.mp (Nat.pos_pow_of_pos j (by norm_num))

/-- Flipping one bit of one byte of the CRC input changes the CRC. -/
theorem calculate_crc_flip (l : List Nat) (i j : Nat) (hi : i < l.length) (hj : j < 8) :
    calculate_crc (l.set i (l.getD i 0 ^^^ (1 <<< j))) ≠ calculate_crc l := by
  have hget : l.getD i 0 = l[i] := by
    simp [List.getD_eq_getElem?_getD, List.getElem?_eq_getElem hi]
  rw [hget]
  have hset := List.set_eq_take_cons_drop (l[i] ^^^ (1 <<< j)) hi
  have hsplit : l = l.take i ++ l[i] :: l.drop (i + 1) := by
    conv_lhs => rw [← List.take_append_drop i l]
    rw [List.getElem_cons_drop l i hi]
  rw [hset]
  conv_rhs => rw [hsplit]
  unfold calculate_crc
  rw [List.foldl_append, List.foldl_append, List.foldl_cons, List.foldl_cons]
  have harg : crc8_update (List.foldl crc8_update 0 (l.take i)) (l[i] ^^^ (1 <<< j)) =
      crc8_update (List.foldl crc8_update 0 (l.take i)) l[i] ^^^ gstep (1 <<< j) := by
    rw [crc8_update_arg, crc8_update_arg, ← Nat.xor_assoc, gstep_xor]
  rw [harg, foldl_crc_xor]
  exact xor_ne_self
    (gIter_ne_zero _ (gstep_lt _) (gstep_ne_zero (pow_two_lt_256 hj) (pow_two_ne_zero j)))

/-- C2: for every packet whose trailing byte is the CRC-8 of its preceding
bytes, flipping any single bit anywhere in the packet (data byte or
trailing CRC byte) makes the recomputed CRC-8 differ from the trailing
byte: every single-bit corruption is detected as a CRC mismatch. -/
theorem C2_single_bit_flip_detected (l : List Nat) (i j : Nat)
    (hi : i < l.length + 1) (hj : j < 8) :
    crcCheck (flipBit (l ++ [calculate_crc l]) i j) = false := by
  rcases Nat.lt_or_ge i l.length with hil | hil
  · -- flip inside the data bytes
    have hget : (l ++ [calculate_crc l]).getD i 0 = l.getD i 0 := by
      simp [List.getD_eq_getElem?_getD, List.getElem?_append_left hil]
    unfold flipBit
    rw [hget, List.set_append_left _ _ hil]
    unfold crcCheck
    rw [List.dropLast_concat, List.getLast?_concat]
    simp only [Option.getD_some, beq_eq_false_iff_ne, ne_eq]
    exact calculate_crc_flip l i j hil hj
  · -- flip in the trailing CRC byte
    have hieq : i = l.length := by omega
    subst hieq
    have hget : (l ++ [calculate_crc l]).getD l.length 0 = calculate_crc l := by
      simp [List.getD_eq_getElem?_getD, List.getElem?_concat_length]
    unfold flipBit
    rw [hget, List.set_append_right _ _ (Nat.le_refl _), Nat.sub_self]
    unfold crcCheck
    simp only [List.set_cons_zero, List.dropLast_concat, List.getLast?_concat,
      Option.getD_some, beq_eq_false_iff_ne, ne_eq]
    exact (xor_ne_self (pow_two_ne_zero j)).symm

/-- C2 witness: a concrete 10-byte response body with its CRC trailer, bit 0
of byte 0 flipped, fails the CRC check. -/
theorem C2_witness :
    crcCheck (flipBit ([0x02, 0, 0, 0, 0, 0, 0, 0, 0x2A]
      ++ [calculate_crc [0x02, 0, 0, 0, 0, 0, 0, 0, 0x2A]]) 0 0) = false :=
  C2_single_bit_flip_detected [0x02, 0, 0, 0, 0, 0, 0, 0, 0x2A] 0 0
    (by decide) (by decide)

/-! ## Register transport (source: `write_register`, `read_register`)

The serial port is abstracted: `connected` models `self.serial and
self.serial.is_open`, and the byte list handed to `read_register` models
what `self.serial.read(10)` returned. Each operation returns its outcome,
the updated statistics, and the packet it wrote to the stream (`none` if
nothing was sent). Event emission (guarded by `enable_events` in the
source) touches only the event subsystem, modelled separately below. -/

/-- The four statistics counters (source `self._stats`). -/
structure Stats where
  commands_sent : Nat
  responses_received : Nat
  crc_errors : Nat
  timeouts : Nat
deriving Repr, DecidableEq

/-- Outcomes of `write_register`: the two raised exceptions and the
unconditional `True` return. -/
inductive WriteOutcome where
  | invalidAddress
  | notConnected
  | success
deriving Repr, DecidableEq

/-- Outcomes of `read_register`: the two raised exceptions, the three
`None`-returning failure paths (distinguished by their logged warning and
counter effects), and a successful value. -/
inductive ReadOutcome where
  | invalidAddress
  | notConnected
  | timeout
  | protocolError
  | crcError
  | ok (value : Nat)
deriving Repr, DecidableEq

/-- Big-endian interpretation of a byte list (semantics of
`struct.unpack` with format `>Q` on 8 bytes). -/
def beBytesToNat (l : List Nat) : Nat :=
  l.foldl (fun acc b => acc * 256 + b) 0

/-- The 8 big-endian base-256 digits of `m` (semantics of `struct.pack`
with format `>Q`, given `m < 2^64`). -/
def natToBe8 (m : Nat) : List Nat :=
  [m / 256 ^ 7 % 256, m / 256 ^ 6 % 256, m / 256 ^ 5 % 256, m / 256 ^ 4 % 256,
   m / 256 ^ 3 % 256, m / 256 ^ 2 % 256, m / 256 % 256, m % 256]

/-- Python's `value & 0xFFFFFFFFFFFFFFFF` on an arbitrary (possibly
negative) int: two's-complement AND with an all-ones mask, i.e. the value
modulo 2^64. -/
def mask64 (v : Int) : Nat :=
  (v % (2 ^ 64 : Int)).toNat

/-- Source `write_register` (lines 238-287): validate the address, check
the port, build `[CMD][ADDR][DATA0-7][CRC]`, send it, bump
`commands_sent`, return `True`. -/
def write_register (connected : Bool) (address : Nat) (value : Int) (s : Stats) :
    WriteOutcome × Stats × Option (List Nat) :=
  if ¬ address ≤ 0x05 then (.invalidAddress, s, none)
  else if ¬ connected then (.notConnected, s, none)
  else
    let body := 0x01 :: address :: natToBe8 (mask64 value)
    let packet := body ++ [calculate_crc body]
    (.success, { s with commands_sent := s.commands_sent + 1 }, some packet)

/-- The read request packet `[0x02][ADDR][0 × 8][CRC]` built by
`read_register`. -/
def readRequestPacket (address : Nat) : List Nat :=
  let body := 0x02 :: address :: List.replicate 8 0
  body ++ [calculate_crc body]

/-- Source `read_register` (lines 289-361): validate the address, check
the port, send the request and bump `commands_sent`, then classify the
response bytes: short response → `timeouts` bumped, `None`; bad header →
`None` with no counter change; CRC mismatch → `crc_errors` bumped, `None`;
otherwise `responses_received` bumped and the big-endian value returned. -/
def read_register (connected : Bool) (address : Nat) (response : List Nat) (s : Stats) :
    ReadOutcome × Stats × Option (List Nat) :=
  if ¬ (0x10 ≤ address ∧ address ≤ 0x15) then (.invalidAddress, s, none)
  else if ¬ connected then (.notConnected, s, none)
  else
    let sent := { s with commands_sent := s.commands_sent + 1 }
    let pkt := some (readRequestPacket address)
    if response.length ≠ 10 then
      (.timeout, { sent with timeouts := sent.timeouts + 1 }, pkt)
    else if response.getD 0 0 ≠ 0x02 then
      (.protocolError, sent, pkt)
    else if calculate_crc (response.take 9) ≠ response.getD 9 0 then
      (.crcError, { sent with crc_errors := sent.crc_errors + 1 }, pkt)
    else
      (.ok (beBytesToNat ((response.drop 1).take 8)),
       { sent with responses_received := sent.responses_received + 1 }, pkt)

/-! ## Claims C3, C4, C5 about the transport -/

theorem getD_of_lt (l : List Nat) (i : Nat) (h : i < l.length) : l.getD i 0 = l[i] := by
  simp [List.getD_eq_getElem?_getD, List.getElem?_eq_getElem h]

/-- C3: a `read_register` call on a connected transport with a valid
status address that receives a full 10-byte response whose first byte is
not the READ tag 0x02 returns the malformed-header error, and the call
leaves `responses_received`, `crc_errors` and `timeouts` exactly as they
were (only the send-phase `commands_sent` increment happened) — unlike a
short response, which bumps `timeouts`, and a CRC mismatch, which bumps
`crc_errors`. -/
theorem C3_bad_header_not_counted (address : Nat) (s : Stats) (response : List Nat)
    (haddr : 0x10 ≤ address ∧ address ≤ 0x15)
    (hlen : response.length = 10) (hhdr : response.getD 0 0 ≠ 0x02) :
    read_register true address response s =
      (.protocolError, { s with commands_sent := s.commands_sent + 1 },
        some (readRequestPacket address)) ∧
    (∀ r2 : List Nat, r2.length < 10 →
      (read_register true address r2 s).2.1 =
        { s with commands_sent := s.commands_sent + 1, timeouts := s.timeouts + 1 }) ∧
    (∀ r3 : List Nat, r3.length = 10 → r3.getD 0 0 = 0x02 →
      calculate_crc (r3.take 9) ≠ r3.getD 9 0 →
      (read_register true address r3 s).2.1 =
        { s with commands_sent := s.commands_sent + 1, crc_errors := s.crc_errors + 1 }) := by
  refine ⟨?_, ?_, ?_⟩
  · unfold read_register
    rw [if_neg (by simpa using haddr)]
    simp [hlen, hhdr]
    intro h
    exact absurd (by rw [getD_of_lt response 0 (by omega)]; exact h) hhdr
  · intro r2 h2
    unfold read_register
    rw [if_neg (by simpa using haddr)]
    simp [show r2.length ≠ 10 by omega]
  · intro r3 h3len h3hdr h3crc
    rw [getD_of_lt r3 0 (by omega)] at h3hdr
    rw [getD_of_lt r3 9 (by omega)] at h3crc
    unfold read_register
    rw [if_neg (by simpa using haddr)]
    simp [h3len, h3hdr, h3crc]

/-- C3 witness: address 0x10, zeroed stats, an all-zero 10-byte response
(header 0x00 ≠ 0x02). -/
theorem C3_witness :
    read_register true 0x10 (List.replicate 10 0) ⟨0, 0, 0, 0⟩ =
      (.protocolError, ⟨1, 0, 0, 0⟩, some (readRequestPacket 0x10)) ∧
    (read_register true 0x10 [] ⟨0, 0, 0, 0⟩).2.1 = ⟨1, 0, 0, 1⟩ := by
  have h := C3_bad_header_not_counted 0x10 ⟨0, 0, 0, 0⟩ (List.replicate 10 0)
    (by decide) (by decide) (by decide)
  exact ⟨h.1, h.2.1 [] (by decide)⟩

/-- C4: `write_register` rejects every address outside `[0x00, 0x05]` with
the invalid-address error before sending anything or touching a counter,
`read_register` likewise rejects every address outside `[0x10, 0x15]`, and
addresses inside the respective ranges pass validation (whatever happens
next is never the invalid-address error). -/
theorem C4_address_validation (address : Nat) (value : Int) (connected : Bool)
    (response : List Nat) (s : Stats) :
    (0x05 < address →
      write_register connected address value s = (.invalidAddress, s, none)) ∧
    (address ≤ 0x05 →
      (write_register connected address value s).1 ≠ .invalidAddress) ∧
    (address < 0x10 ∨ 0x15 < address →
      read_register connected address response s = (.invalidAddress, s, none)) ∧
    (0x10 ≤ address → address ≤ 0x15 →
      (read_register connected address response s).1 ≠ .invalidAddress) := by
  refine ⟨?_, ?_, ?_, ?_⟩
  · intro h
    unfold write_register
    rw [if_pos (by omega)]
  · intro h
    unfold write_register
    rw [if_neg (by omega)]
    split
    · simp
    · simp
  · intro h
    unfold read_register
    rw [if_pos (by omega)]
  · intro h1 h2
    unfold read_register
    rw [if_neg (by omega)]
    dsimp only
    split
    · simp
    · split
      · simp
      · split
        · simp
        · split
          · simp
          · simp

/-- C4 witness: the spec's own examples — `write_register 0x06` and
`read_register 0x00` are rejected, `write_register 0x00` and
`read_register 0x10` pass validation. -/
theorem C4_witness :
    write_register true 0x06 0 ⟨0, 0, 0, 0⟩ = (.invalidAddress, ⟨0, 0, 0, 0⟩, none) ∧
    (write_register true 0x00 0 ⟨0, 0, 0, 0⟩).1 ≠ .invalidAddress ∧
    read_register true 0x00 [] ⟨0, 0, 0, 0⟩ = (.invalidAddress, ⟨0, 0, 0, 0⟩, none) ∧
    (read_register true 0x10 [] ⟨0, 0, 0, 0⟩).1 ≠ .invalidAddress := by
  refine ⟨?_, ?_, ?_, ?_⟩
  · exact (C4_address_validation 0x06 0 true [] ⟨0, 0, 0, 0⟩).1 (by decide)
  · exact (C4_address_validation 0x00 0 true [] ⟨0, 0, 0, 0⟩).2.1 (by decide)
  · exact (C4_address_validation 0x00 0 true [] ⟨0, 0, 0, 0⟩).2.2.1 (Or.inl (by decide))
  · exact (C4_address_validation 0x10 0 true [] ⟨0, 0, 0, 0⟩).2.2.2 (by decide) (by decide)

/-- C5: a `read_register` call on a connected transport with a valid
status address that receives fewer than 10 response bytes returns the
timeout outcome with the timeout counter incremented by exactly 1, and the
receive phase leaves `crc_errors` and `responses_received` unchanged. -/
theorem C5_short_response_timeout (address : Nat) (s : Stats) (response : List Nat)
    (haddr : 0x10 ≤ address ∧ address ≤ 0x15) (hlen : response.length < 10) :
    (read_register true address response s).1 = .timeout ∧
    (read_register true address response s).2.1.timeouts = s.timeouts + 1 ∧
    (read_register true address response s).2.1.crc_errors = s.crc_errors ∧
    (read_register true address response s).2.1.responses_received = s.responses_received := by
  unfold read_register
  rw [if_neg (by simpa using haddr)]
  simp [show response.length ≠ 10 by omega]

/-- C5 witness: address 0x15, a 3-byte response. -/
theorem C5_witness :
    (read_register true 0x15 [0x02, 0, 0] ⟨5, 6, 7, 8⟩).1 = .timeout ∧
    (read_register true 0x15 [0x02, 0, 0] ⟨5, 6, 7, 8⟩).2.1.timeouts = 9 ∧
    (read_register true 0x15 [0x02, 0, 0] ⟨5, 6, 7, 8⟩).2.1.crc_errors = 7 ∧
    (read_register true 0x15 [0x02, 0, 0] ⟨5, 6, 7, 8⟩).2.1.responses_received = 6 :=
  C5_short_response_timeout 0x15 ⟨5, 6, 7, 8⟩ [0x02, 0, 0] (by decide) (by decide)

/-! ## Claims C8 (CRC round trip) and C9 (64-bit value masking) -/

theorem crcCheck_concat (body : List Nat) :
    crcCheck (body ++ [calculate_crc body]) = true := by
  unfold crcCheck
  rw [List.dropLast_concat, List.getLast?_concat]
  simp

/-- C8: every packet built as body-plus-CRC-8-trailer passes the decoder's
CRC check — for every command byte, address byte and 8-byte payload the
CRC-8 recomputed over the bytes preceding the trailer equals the trailer;
in particular the packets `write_register` and `read_register` actually
send pass it. -/
theorem C8_crc_roundtrip (cmd addr : Nat) (payload : List Nat) (v : Int) (s : Stats)
    (_hlen : payload.length = 8) :
    crcCheck ((cmd :: addr :: payload) ++ [calculate_crc (cmd :: addr :: payload)]) = true ∧
    (addr ≤ 0x05 → crcCheck (((write_register true addr v s).2.2).getD []) = true) ∧
    crcCheck (readRequestPacket addr) = true := by
  refine ⟨crcCheck_concat _, ?_, ?_⟩
  · intro haddr
    unfold write_register
    rw [if_neg (by omega), if_neg (by simp)]
    exact crcCheck_concat _
  · unfold readRequestPacket
    exact crcCheck_concat _

/-- C8 witness: the spec's request-encoding example, command 0x01, address
0x00, payload `12 34 56 78 9A BC DE F0`. -/
theorem C8_witness :
    crcCheck (([0x01, 0x00] ++ [0x12, 0x34, 0x56, 0x78, 0x9A, 0xBC, 0xDE, 0xF0])
      ++ [calculate_crc ([0x01, 0x00] ++ [0x12, 0x34, 0x56, 0x78, 0x9A, 0xBC, 0xDE, 0xF0])])
      = true ∧
    crcCheck (readRequestPacket 0x10) = true := by
  have h := C8_crc_roundtrip 0x01 0x00 [0x12, 0x34, 0x56, 0x78, 0x9A, 0xBC, 0xDE, 0xF0]
    0 ⟨0, 0, 0, 0⟩ (by decide)
  exact ⟨h.1, h.2.2⟩

theorem beBytesToNat_natToBe8 (m : Nat) (h : m < 2 ^ 64) : beBytesToNat (natToBe8 m) = m := by
  unfold beBytesToNat natToBe8
  norm_num [List.foldl]
  omega

theorem mask64_lt (v : Int) : mask64 v < 2 ^ 64 := by
  unfold mask64
  have h1 : 0 ≤ v % (2 ^ 64 : Int) := Int.emod_nonneg v (by norm_num)
  have h2 : v % (2 ^ 64 : Int) < 2 ^ 64 := Int.emod_lt_of_pos v (by norm_num)
  omega

/-- C9: `write_register` accepts every integer value (no out-of-range
exception: the outcome is success for any `v`, however large or negative),
sends an 11-byte packet, and the 8 payload bytes at offsets 2..9 encode,
in big-endian order, exactly `v` reduced modulo 2^64. -/
theorem C9_value_masked_mod_2_64 (addr : Nat) (v : Int) (s : Stats) (haddr : addr ≤ 0x05) :
    (write_register true addr v s).1 = .success ∧
    (((write_register true addr v s).2.2).getD []).length = 11 ∧
    beBytesToNat (((((write_register true addr v s).2.2).getD []).drop 2).take 8)
      = (v % (2 ^ 64 : Int)).toNat := by
  unfold write_register
  rw [if_neg (by omega), if_neg (by simp)]
  dsimp only
  refine ⟨rfl, ?_, ?_⟩
  · simp [natToBe8]
  · have hd : (natToBe8 (mask64 v) ++ [calculate_crc
        (0x01 :: addr :: natToBe8 (mask64 v))]).take 8 = natToBe8 (mask64 v) := by
      have h8 : (natToBe8 (mask64 v)).length = 8 := by simp [natToBe8]
      rw [← h8, List.take_left]
    show beBytesToNat ((natToBe8 (mask64 v) ++ [calculate_crc
        (0x01 :: addr :: natToBe8 (mask64 v))]).take 8) = (v % (2 ^ 64 : Int)).toNat
    rw [hd, beBytesToNat_natToBe8 _ (mask64_lt v)]
    rfl

/-- C9 witness: writing value -1 to address 0x00 succeeds and its payload
encodes 2^64 - 1. -/
theorem C9_witness :
    (write_register true 0x00 (-1) ⟨0, 0, 0, 0⟩).1 = .success ∧
    (((write_register true 0x00 (-1) ⟨0, 0, 0, 0⟩).2.2).getD []).length = 11 ∧
    beBytesToNat (((((write_register true 0x00 (-1) ⟨0, 0, 0, 0⟩).2.2).getD []).drop 2).take 8)
      = ((-1 : Int) % (2 ^ 64 : Int)).toNat :=
  C9_value_masked_mod_2_64 0x00 (-1) ⟨0, 0, 0, 0⟩ (by decide)

/-! ## Event subsystem (source: `IOEvent`, `_emit_event`, `get_event_history`)

Timestamps (floats in the source) are irrelevant to every claim and are
modelled as `Nat`; the `data` dict is omitted for the same reason. A
handler is modelled as a function returning `Except Unit Unit`: `.error`
models a raised exception, which `_emit_event` catches and logs. -/

/-- An IO event record (source dataclass `IOEvent`); `event_type` is the
numeric `IOLineEvent` code. -/
structure IOEvent where
  event_type : Nat
  timestamp : Nat := 0
  register_addr : Option Nat := none
  value : Option Nat := none
deriving Repr, DecidableEq

/-- The history update inside `_emit_event` (lines 557-561): append, then
pop the oldest entry if the length exceeds `_max_history_size = 1000`. -/
def emitHist (h : List IOEvent) (e : IOEvent) : List IOEvent :=
  let h2 := h ++ [e]
  if 1000 < h2.length then h2.drop 1 else h2

/-- Emit a whole sequence of events in order. -/
def emitAll (h : List IOEvent) (es : List IOEvent) : List IOEvent :=
  es.foldl emitHist h

theorem emitHist_length_le (h : List IOEvent) (e : IOEvent) (hh : h.length ≤ 1000) :
    (emitHist h e).length ≤ 1000 := by
  have hlen : (h ++ [e]).length = h.length + 1 := by simp
  unfold emitHist
  dsimp only
  split
  · simp only [List.length_drop, hlen]
    omega
  · rename_i hnot
    rw [hlen] at hnot ⊢
    omega

theorem emitAll_eq (es : List IOEvent) :
    ∀ h : List IOEvent, h.length ≤ 1000 →
      emitAll h es = (h ++ es).drop (h.length + es.length - 1000) := by
  induction es with
  | nil =>
    intro h hh
    simp [emitAll]
    rw [show h.length - 1000 = 0 by omega, List.drop_zero]
  | cons e rest ih =>
    intro h hh
    show emitAll (emitHist h e) rest = _
    rw [ih (emitHist h e) (emitHist_length_le h e hh)]
    unfold emitHist
    dsimp only
    rcases Nat.lt_or_ge 1000 (h ++ [e]).length with hc | hc
    · rw [if_pos hc]
      have hlen0 : h.length = 1000 := by
        have hx : (h ++ [e]).length = h.length + 1 := by simp
        omega
      have h1 : ((h ++ [e]).drop 1).length + rest.length - 1000 = rest.length := by
        simp only [List.length_drop, List.length_append, List.length_cons,
          List.length_nil, hlen0]
        omega
      have hsplit : ((h ++ [e]) ++ rest).drop 1 = (h ++ [e]).drop 1 ++ rest :=
        List.drop_append_of_le_length (by simp)
      have hidx : h.length + (e :: rest).length - 1000 = 1 + rest.length := by
        simp only [List.length_cons, hlen0]
        omega
      rw [h1, ← hsplit, List.drop_drop, hidx, List.append_assoc]
      rfl
    · rw [if_neg (by omega)]
      have hidx2 : (h ++ [e]).length + rest.length - 1000 =
          h.length + (e :: rest).length - 1000 := by
        simp only [List.length_append, List.length_cons, List.length_nil]
        omega
      rw [hidx2, List.append_assoc]
      rfl

theorem emitAll_length_le (es : List IOEvent) (h : List IOEvent) (hh : h.length ≤ 1000) :
    (emitAll h es).length ≤ 1000 := by
  rw [emitAll_eq es h hh]
  simp
  omega

/-- C6: starting from any history within the 1000-event capacity, one emit
stays within capacity (so no reachable history ever exceeds 1000 events);
and emitting more than 1000 events into an initially empty history leaves
exactly the most recent 1000 of them, in emission order. -/
theorem C6_history_bounded (es : List IOEvent) (h0 : List IOEvent) (e : IOEvent)
    (hh : h0.length ≤ 1000) :
    (emitHist h0 e).length ≤ 1000 ∧
    (emitAll [] es).length ≤ 1000 ∧
    (1000 < es.length →
      emitAll [] es = es.drop (es.length - 1000) ∧ (emitAll [] es).length = 1000) := by
  refine ⟨emitHist_length_le h0 e hh, emitAll_length_le es [] (by simp), ?_⟩
  intro hN
  have heq : emitAll [] es = es.drop (es.length - 1000) := by
    have := emitAll_eq es [] (by simp)
    simpa using this
  refine ⟨heq, ?_⟩
  rw [heq]
  simp
  omega

/-- A `REGISTER_WRITE` event used by the concrete witness scenarios. -/
def evWrite : IOEvent := { event_type := 0x51 }

/-- C6 witness: 1001 identical events emitted into an empty history leave
the most recent 1000. -/
theorem C6_witness :
    (emitHist [] evWrite).length ≤ 1000 ∧
    (emitAll [] (List.replicate 1001 evWrite)).length ≤ 1000 ∧
    (emitAll [] (List.replicate 1001 evWrite) =
        (List.replicate 1001 evWrite).drop ((List.replicate 1001 evWrite).length - 1000) ∧
      (emitAll [] (List.replicate 1001 evWrite)).length = 1000) := by
  have h := C6_history_bounded (List.replicate 1001 evWrite) [] evWrite (by simp)
  exact ⟨h.1, h.2.1, h.2.2 (by simp only [List.length_replicate]; omega)⟩

/-! ## Handler dispatch (claim C7) -/

/-- The handler loop of `_emit_event` (lines 563-569): each handler is
called on the event; a raised exception (`.error`) is caught and logged,
and iteration continues with the next handler. The returned list records
each handler's outcome in order. -/
def runHandlers : List (IOEvent → Except Unit Unit) → IOEvent → List (Except Unit Unit)
  | [], _ => []
  | h :: rest, e =>
    match h e with
    | .ok u => .ok u :: runHandlers rest e
    | .error err => .error err :: runHandlers rest e

/-- The handlers registered for a kind, in registration order (source
`self._event_handlers`, a dict of per-kind lists fed by
`register_event_handler`'s appends, consulted via `.get(event_type, [])`;
modelled as an association list in registration order). -/
def handlersFor (table : List (Nat × (IOEvent → Except Unit Unit))) (k : Nat) :
    List (IOEvent → Except Unit Unit) :=
  (table.filter (fun p => p.1 == k)).map (fun p => p.2)

/-- Source `_emit_event`: append the event to the history (with eviction),
then run every handler registered for the event's kind. -/
def emit_event (hist : List IOEvent) (table : List (Nat × (IOEvent → Except Unit Unit)))
    (e : IOEvent) : List IOEvent × List (Except Unit Unit) :=
  (emitHist hist e, runHandlers (handlersFor table e.event_type) e)

theorem runHandlers_eq_map (hs : List (IOEvent → Except Unit Unit)) (e : IOEvent) :
    runHandlers hs e = hs.map (fun h => h e) := by
  induction hs with
  | nil => rfl
  | cons h rest ih =>
    show (match h e with
      | .ok u => Except.ok u :: runHandlers rest e
      | .error err => Except.error err :: runHandlers rest e) = h e :: rest.map (fun h => h e)
    cases hv : h e <;> rw [ih]

theorem runHandlers_append (hs1 hs2 : List (IOEvent → Except Unit Unit)) (e : IOEvent) :
    runHandlers (hs1 ++ hs2) e = runHandlers hs1 e ++ runHandlers hs2 e := by
  rw [runHandlers_eq_map, runHandlers_eq_map, runHandlers_eq_map, List.map_append]

/-- C7: when `_emit_event` dispatches to the handlers registered for the
event's kind and one of them raises, every later-registered handler for
that kind is still invoked on the same event (its outcome appears at its
position in the dispatch results), and the emit still completes with the
event appended to the history exactly as `emitHist` prescribes. -/
theorem C7_handler_isolation (hist : List IOEvent)
    (table : List (Nat × (IOEvent → Except Unit Unit))) (e : IOEvent)
    (pre post : List (IOEvent → Except Unit Unit)) (bad : IOEvent → Except Unit Unit)
    (hsplit : handlersFor table e.event_type = pre ++ bad :: post)
    (hbad : bad e = .error ()) :
    (emit_event hist table e).1 = emitHist hist e ∧
    (emit_event hist table e).2 =
      runHandlers pre e ++ .error () :: post.map (fun h => h e) ∧
    (runHandlers post e).length = post.length := by
  refine ⟨rfl, ?_, ?_⟩
  · show runHandlers (handlersFor table e.event_type) e = _
    rw [hsplit, runHandlers_append]
    show runHandlers pre e ++ (match bad e with
      | .ok u => Except.ok u :: runHandlers post e
      | .error err => Except.error err :: runHandlers post e) = _
    rw [hbad]
    show runHandlers pre e ++ Except.error () :: runHandlers post e =
      runHandlers pre e ++ Except.error () :: post.map (fun h => h e)
    rw [runHandlers_eq_map post e]
  · rw [runHandlers_eq_map]
    exact List.length_map post _

/-- A handler that raises (witness scenario). -/
def hBad : IOEvent → Except Unit Unit := fun _ => .error ()

/-- A handler that succeeds (witness scenario). -/
def hGood : IOEvent → Except Unit Unit := fun _ => .ok ()

/-- C7 witness: kind 0x51 with a raising handler registered before a
succeeding one; the second handler still runs and the event is appended. -/
theorem C7_witness :
    (emit_event [] [(0x51, hBad), (0x51, hGood)] evWrite).1 = emitHist [] evWrite ∧
    (emit_event [] [(0x51, hBad), (0x51, hGood)] evWrite).2 =
      runHandlers [] evWrite ++ .error () :: [hGood].map (fun h => h evWrite) ∧
    (runHandlers [hGood] evWrite).length = 1 :=
  C7_handler_isolation [] [(0x51, hBad), (0x51, hGood)] evWrite [] [hGood] hBad rfl rfl

/-! ## History queries (claim C10) -/

/-- Source `get_event_history` (lines 665-686): copy the history, filter
by kind when a kind is given, then apply Python's `events[-limit:]` when a
limit is given. For `limit = 0` that slice is `events[0:]`, the whole
list, not the last 0 elements. -/
def get_event_history (hist : List IOEvent) (event_type : Option Nat)
    (limit : Option Nat) : List IOEvent :=
  let events := hist
  let events := match event_type with
    | some t => events.filter (fun e => e.event_type == t)
    | none => events
  match limit with
  | some n => if n = 0 then events else events.drop (events.length - n)
  | none => events

/-- C10 failing input: with one stored event of the requested kind and
`limit = 0`, the code returns the whole filtered list where the claim
(and the docstring's "maximum number of events to return") demands the
last 0 elements, i.e. `[]`. -/
theorem C10_limit_zero_returns_all :
    get_event_history [evWrite] (some 0x51) (some 0) = [evWrite] := rfl

end Uart
